import Mathlib

/-
  Verification development for the jackpot wheel game engine.

  The definitions below are a shallow embedding of the game engine source:
  the database (games, gameSlots, userPoints tables) is a record of lists,
  every engine operation is a pure function from state to (result, state),
  and the pseudo-random draws (winning slot, bot name) are explicit
  parameters.  JavaScript number arithmetic in the payout formula is
  modelled over the rationals, with Math.round as floor (q + 1/2).
-/

namespace JackpotGame

/-- Tier names of the three wheel configurations. -/
inductive Tier
  | low
  | medium
  | high
  deriving DecidableEq, Repr

/-- Lifecycle status of a game, mirroring the games.status enum. -/
inductive GameStatus
  | filling
  | full
  | spinning
  | completed
  deriving DecidableEq, Repr

/-- Owner of a slot, mirroring the gameSlots.ownerType enum. -/
inductive OwnerType
  | player
  | bot
  deriving DecidableEq, Repr

/-- Winner of a game, mirroring the games.winnerType enum. -/
inductive WinnerType
  | player
  | bot
  | house
  deriving DecidableEq, Repr

/-- Static per-tier configuration (GAME_CONFIGS in the engine source). -/
structure GameConfig where
  tier : Tier
  slotCount : Nat
  entryCost : Int
  edgePct : Int
  fillTimeMs : Nat
  deriving DecidableEq, Repr

/-- The three static tier configurations from the engine source. -/
def GAME_CONFIGS : Tier → GameConfig
  | .low => ⟨.low, 12, 5, -2, 30000⟩
  | .medium => ⟨.medium, 10, 11, -8, 30000⟩
  | .high => ⟨.high, 6, 25, -20, 15000⟩

/-- A row of the games table. -/
structure Game where
  id : Nat
  tier : Tier
  slotCount : Nat
  entryCost : Int
  edgePct : Int
  winningSlot : Option Int := none
  winnerType : Option WinnerType := none
  winnerId : Option String := none
  payout : Option Int := none
  houseCommission : Option Int := none
  status : GameStatus
  completedAt : Option Nat := none
  deriving DecidableEq, Repr

/-- A row of the gameSlots table. -/
structure GameSlot where
  gameId : Nat
  slotNumber : Int
  ownerType : OwnerType
  ownerId : String
  entryCost : Int
  deriving DecidableEq, Repr

/-- A calendar date plus a sub-day component, standing in for a JS Date. -/
structure DateTime where
  year : Int
  month : Nat
  day : Nat
  ms : Nat := 0
  deriving DecidableEq, Repr

/-- A row of the userPoints table. -/
structure UserPoints where
  userId : Int
  balance : Int
  totalEarned : Int
  totalWagered : Int
  lastDailyReward : Option DateTime := none
  deriving DecidableEq, Repr

/-- The persistent store: the three tables plus the auto-increment counter. -/
structure DbState where
  games : List Game
  slots : List GameSlot
  points : List UserPoints
  nextGameId : Nat
  deriving DecidableEq, Repr

/-- The empty database, with auto-increment ids starting at 1. -/
def initState : DbState := ⟨[], [], [], 1⟩

/-- JS Math.round over the rationals: floor of q + 1/2 (half rounds up). -/
def jsRound (q : ℚ) : Int := Int.floor (q + 1 / 2)

/-- Row selection predicate for games.id = gid. -/
def gameIdEq (gid : Nat) (g : Game) : Bool := decide (g.id = gid)

/-- SELECT from games WHERE id = gid LIMIT 1. -/
def findGame (s : DbState) (gid : Nat) : Option Game := s.games.find? (gameIdEq gid)

/-- SELECT from gameSlots WHERE gameId = gid. -/
def gameSlotsOf (s : DbState) (gid : Nat) : List GameSlot :=
  s.slots.filter (fun sl => decide (sl.gameId = gid))

/-- UPDATE games SET ... WHERE id = gid, with the patch given as a function. -/
def updateGames (gs : List Game) (gid : Nat) (f : Game → Game) : List Game :=
  gs.map (fun g => if gameIdEq gid g then f g else g)

/-- Lift updateGames to the whole state. -/
def updateGame (s : DbState) (gid : Nat) (f : Game → Game) : DbState :=
  { s with games := updateGames s.games gid f }

/-- Row selection predicate for userPoints.userId = uid. -/
def userIdEq (uid : Int) (p : UserPoints) : Bool := decide (p.userId = uid)

/-- UPDATE userPoints SET ... WHERE userId = uid. -/
def updateUserPointsRows (ps : List UserPoints) (uid : Int) (f : UserPoints → UserPoints) :
    List UserPoints :=
  ps.map (fun p => if userIdEq uid p then f p else p)

/-- getOrCreateUserPoints from gameDb.ts: look the record up, inserting the
default record (balance 30000, totalEarned 30000, totalWagered 0, no daily
reward) when the user has none, and return the record together with the
possibly extended state. -/
def getOrCreateUserPoints (s : DbState) (uid : Int) : UserPoints × DbState :=
  match s.points.find? (userIdEq uid) with
  | some p => (p, s)
  | none =>
      let p : UserPoints := ⟨uid, 30000, 30000, 0, none⟩
      (p, { s with points := s.points ++ [p] })

/-- getUserPoints from gameDb.ts simply delegates to getOrCreateUserPoints. -/
def getUserPoints (s : DbState) (uid : Int) : UserPoints × DbState :=
  getOrCreateUserPoints s uid

/-- The (balance, totalEarned, totalWagered) triple of a user as any reader of
the ledger observes it (every read goes through getOrCreateUserPoints). -/
def userPointsView (s : DbState) (uid : Int) : Int × Int × Int :=
  ((getOrCreateUserPoints s uid).1.balance,
   (getOrCreateUserPoints s uid).1.totalEarned,
   (getOrCreateUserPoints s uid).1.totalWagered)

/-- updateUserBalance from gameDb.ts: read (or create) the record, add the
signed amount to the balance, book positive amounts into totalEarned and the
absolute value of negative amounts into totalWagered. -/
def updateUserBalance (s : DbState) (uid : Int) (amount : Int) : Int × DbState :=
  let read := getOrCreateUserPoints s uid
  let current := read.1
  let s1 := read.2
  let newBalance := current.balance + amount
  (newBalance,
    { s1 with
      points := updateUserPointsRows s1.points uid (fun p =>
        { p with
          balance := newBalance
          totalEarned := if amount > 0 then current.totalEarned + amount else current.totalEarned
          totalWagered := if amount < 0 then current.totalWagered + |amount| else current.totalWagered }) })

/-- Comparison of two instants at calendar-day granularity, mirroring the
new Date(y, m, d) comparison in applyDailyReward. -/
def sameCalendarDay (a b : DateTime) : Bool :=
  decide (a.year = b.year ∧ a.month = b.month ∧ a.day = b.day)

/-- Test used in claims: has this user already claimed on day t? -/
def claimedOn (o : Option DateTime) (t : DateTime) : Bool :=
  match o with
  | some last => sameCalendarDay last t
  | none => false

/-- applyDailyReward from gameDb.ts: at most one 50000-point bonus per
calendar day; the bonus also books into totalEarned and stamps
lastDailyReward with the current instant. -/
def applyDailyReward (s : DbState) (uid : Int) (now : DateTime) : Bool × DbState :=
  let read := getOrCreateUserPoints s uid
  let points := read.1
  let s1 := read.2
  if claimedOn points.lastDailyReward now then
    (false, s1)
  else
    (true,
      { s1 with
        points := updateUserPointsRows s1.points uid (fun p =>
          { p with
            balance := points.balance + 50000
            totalEarned := points.totalEarned + 50000
            lastDailyReward := some now }) })

/-- The state snapshot returned by getGameState in the engine source. -/
structure GameStateView where
  game : Game
  slots : List GameSlot
  filledCount : Nat
  emptyCount : Int
  deriving DecidableEq, Repr

/-- getGameState from the engine source: the game row, its slot rows, and the
derived fill counters; none when the game id is unknown. -/
def getGameState (s : DbState) (gid : Nat) : Option GameStateView :=
  match findGame s gid with
  | none => none
  | some g =>
      some ⟨g, gameSlotsOf s gid, (gameSlotsOf s gid).length,
            (g.slotCount : Int) - ((gameSlotsOf s gid).length : Int)⟩

/-- The loop in addBotEntry scanning slot numbers i, i+1, ... for the first
number not occupied, with the remaining iteration count as fuel. -/
def findEmptySlotAux (occ : List Int) (i : Int) : Nat → Option Int
  | 0 => none
  | fuel + 1 => if decide (i ∈ occ) then findEmptySlotAux occ (i + 1) fuel else some i

/-- The lowest slot number in [1, n] missing from the occupied set, as the
for-loop in addBotEntry computes it. -/
def findEmptySlot (occ : List Int) (n : Nat) : Option Int :=
  findEmptySlotAux occ 1 n

/-- createGame from the engine source: insert a fresh game row seeded from
the static tier config with status filling, returning the new id. -/
def createGame (s : DbState) (tier : Tier) : Nat × DbState :=
  let config := GAME_CONFIGS tier
  let gid := s.nextGameId
  (gid,
    { s with
      games := s.games ++
        [{ id := gid, tier := config.tier, slotCount := config.slotCount,
           entryCost := config.entryCost, edgePct := config.edgePct,
           status := .filling }]
      nextGameId := gid + 1 })

/-- Row selection predicate of the active-game query: this tier, status in
(filling, full). -/
def activeForTier (t : Tier) (g : Game) : Bool :=
  decide (g.tier = t ∧ (g.status = GameStatus.filling ∨ g.status = GameStatus.full))

/-- getOrCreateActiveGame from the engine source: return the first active
(filling or full) game of the tier, creating one when none exists. -/
def getOrCreateActiveGame (s : DbState) (tier : Tier) : Nat × DbState :=
  match s.games.find? (activeForTier tier) with
  | some g => (g.id, s)
  | none => createGame s tier

/-- addBotEntry from the engine source: require status filling and a free
slot count, then occupy the lowest-numbered free slot number with a bot row
paying the game entry cost nominally (no ledger debit).  The drawn bot
display name is passed in as the oracle for the random pick. -/
def addBotEntry (s : DbState) (gid : Nat) (botName : String) : Bool × DbState :=
  match getGameState s gid with
  | none => (false, s)
  | some st =>
      if st.game.status ≠ GameStatus.filling then (false, s)
      else if st.filledCount ≥ st.game.slotCount then (false, s)
      else
        match findEmptySlot (st.slots.map (fun sl => sl.slotNumber)) st.game.slotCount with
        | none => (false, s)
        | some i =>
            (true,
              { s with
                slots := s.slots ++ [⟨gid, i, .bot, botName, st.game.entryCost⟩] })

/-- Map a slot owner to the recorded winner, as the settlement cast does. -/
def ownerToWinner : OwnerType → WinnerType
  | .player => .player
  | .bot => .bot

/-- Accumulate the value of a leading digit run, stopping at the first
non-digit character (the tail of JS parseInt). -/
def parseDigitsAux : List Char → Nat → Nat
  | [], acc => acc
  | c :: cs, acc =>
      if c.isDigit then parseDigitsAux cs (acc * 10 + (c.toNat - 48)) else acc

/-- JS parseInt(s, 10) on our string domain: skip leading spaces, allow one
sign, then require at least one digit; none models NaN. -/
def jsParseInt (s : String) : Option Int :=
  let cs := s.toList.dropWhile (fun c => c == ' ')
  match cs with
  | [] => none
  | c :: rest =>
      if c == '-' then
        match rest with
        | [] => none
        | d :: _ =>
            if d.isDigit then some (-(parseDigitsAux rest 0 : Int)) else none
      else if c == '+' then
        match rest with
        | [] => none
        | d :: _ =>
            if d.isDigit then some ((parseDigitsAux rest 0 : Int)) else none
      else if c.isDigit then some ((parseDigitsAux cs 0 : Int))
      else none

/-- The slot occupying the drawn winning slot number, if any. -/
def winnerSlotOf (st : GameStateView) (d : Int) : Option GameSlot :=
  st.slots.find? (fun sl => decide (sl.slotNumber = d))

/-- The winner type recorded by settlement: the owner of the winning slot,
or house when the drawn slot is unoccupied. -/
def spinWinnerType (st : GameStateView) (d : Int) : WinnerType :=
  match winnerSlotOf st d with
  | some sl => ownerToWinner sl.ownerType
  | none => .house

/-- The winner id recorded by settlement. -/
def spinWinnerId (st : GameStateView) (d : Int) : String :=
  match winnerSlotOf st d with
  | some sl => sl.ownerId
  | none => "house"

/-- Number of player-owned slots of the game. -/
def playerSlotCount (st : GameStateView) : Nat :=
  (st.slots.filter (fun sl => decide (sl.ownerType = OwnerType.player))).length

/-- The total pot: number of filled slots times the game entry cost. -/
def totalPotOf (st : GameStateView) : Int :=
  (st.slots.length : Int) * st.game.entryCost

/-- The payout local of spinGame: zero unless a player owns the winning
slot, else the pot divided by the aggregate player win chance, scaled by
(1 + edgePct/100) and rounded to the nearest multiple of 5. -/
def spinPayout (st : GameStateView) (d : Int) : Int :=
  match winnerSlotOf st d with
  | none => 0
  | some _ =>
      if playerSlotCount st > 0 ∧ spinWinnerType st d = WinnerType.player then
        jsRound ((((totalPotOf st : ℚ)) / ((playerSlotCount st : ℚ) / (st.game.slotCount : ℚ))) *
          (1 + (st.game.edgePct : ℚ) / 100) / 5) * 5
      else 0

/-- The house commission: 10 percent of the total pot, rounded. -/
def spinCommission (st : GameStateView) : Int :=
  jsRound ((totalPotOf st : ℚ) * (1 / 10))

/-- The settlement patch written to the game row by spinGame. -/
def spinResultUpdate (st : GameStateView) (d : Int) (now : Nat) : Game → Game :=
  fun g =>
    { g with
      winningSlot := some d
      winnerType := some (spinWinnerType st d)
      winnerId := some (spinWinnerId st d)
      payout := some (if spinWinnerType st d = WinnerType.player then spinPayout st d else 0)
      houseCommission := some (spinCommission st)
      status := .completed
      completedAt := some now }

/-- spinGame from the engine source.  The uniformly drawn winning slot and
the completion timestamp are passed in as oracles.  Note that the source has
no status guard: any game found by id is settled.  The game is first marked
spinning, then the result fields are persisted with status completed, and a
player winner whose recorded id parses as a number is credited the payout. -/
def spinGame (s : DbState) (gid : Nat) (draw : Int) (now : Nat) : Bool × DbState :=
  match getGameState s gid with
  | none => (false, s)
  | some st =>
      let s1 := updateGame s gid (fun g => { g with status := .spinning })
      let s2 := updateGame s1 gid (spinResultUpdate st draw now)
      let s3 :=
        if spinWinnerType st draw = WinnerType.player then
          match jsParseInt (spinWinnerId st draw) with
          | some uid => (updateUserBalance s2 uid (spinPayout st draw)).2
          | none => s2
        else s2
      (true, s3)

/-- checkAndSpinIfFull from the engine source: spin exactly when the slot
count is reached. -/
def checkAndSpinIfFull (s : DbState) (gid : Nat) (draw : Int) (now : Nat) : Bool × DbState :=
  match getGameState s gid with
  | none => (false, s)
  | some st =>
      if st.filledCount < st.game.slotCount then (false, s)
      else spinGame s gid draw now

/-- Failure modes of buySpot, mirroring the three thrown errors. -/
inductive BuyError
  | gameNotFound
  | slotTaken
  | insufficientFunds
  deriving DecidableEq, Repr

/-- buySpot from the game router: check existence, slot availability and
balance, then debit, insert the player slot and run the fullness check.  On
success the reported new balance is computed from the pre-debit read. -/
def buySpot (s : DbState) (gid : Nat) (uid : Int) (slotNumber : Int)
    (draw : Int) (now : Nat) : Except BuyError Int × DbState :=
  match getGameState s gid with
  | none => (.error .gameNotFound, s)
  | some st =>
      if st.slots.any (fun sl => decide (sl.slotNumber = slotNumber)) then
        (.error .slotTaken, s)
      else
        let read := getUserPoints s uid
        let userPts := read.1
        let s1 := read.2
        if userPts.balance < st.game.entryCost then
          (.error .insufficientFunds, s1)
        else
          let s2 := (updateUserBalance s1 uid (-(st.game.entryCost))).2
          let s3 := { s2 with
            slots := s2.slots ++ [⟨gid, slotNumber, .player, toString uid, st.game.entryCost⟩] }
          let s4 := (checkAndSpinIfFull s3 gid draw now).2
          (.ok (userPts.balance - st.game.entryCost), s4)

/-- One engine operation together with its random draws and timestamps. -/
inductive Op
  | getOrCreate (tier : Tier)
  | addBot (gid : Nat) (botName : String)
  | buy (gid : Nat) (uid : Int) (slotNumber : Int) (draw : Int) (now : Nat)
  | checkSpin (gid : Nat) (draw : Int) (now : Nat)
  | spin (gid : Nat) (draw : Int) (now : Nat)

/-- Apply one engine operation to the store, keeping only the state. -/
def step (s : DbState) : Op → DbState
  | .getOrCreate t => (getOrCreateActiveGame s t).2
  | .addBot g n => (addBotEntry s g n).2
  | .buy g u sn d now => (buySpot s g u sn d now).2
  | .checkSpin g d now => (checkAndSpinIfFull s g d now).2
  | .spin g d now => (spinGame s g d now).2

/-- Run a list of engine operations from a state. -/
def runOps (s : DbState) : List Op → DbState
  | [] => s
  | op :: ops => runOps (step s op) ops

/-- Number of games of the tier in an active status (filling or full). -/
def activeCountL (t : Tier) (gs : List Game) : Nat :=
  (gs.filter (activeForTier t)).length

/-- A key-selective map commutes with find? on the key predicate whenever
the patch preserves the key. -/
theorem find?_selective_map {α : Type} (l : List α) (q : α → Bool) (f : α → α)
    (hq : ∀ a, q (f a) = q a) :
    (l.map (fun a => if q a then f a else a)).find? q = (l.find? q).map f := by
  induction l with
  | nil => simp
  | cons a l ih =>
      by_cases hqa : q a = true
      · simp [hqa, List.find?_cons, hq]
      · have hqa2 : q a = false := by
          cases h : q a
          · rfl
          · exact absurd h hqa
        simp [hqa2, List.find?_cons, ih]

/-- find? skips a prefix on which it fails. -/
theorem find?_append_of_none {α : Type} (l1 l2 : List α) (p : α → Bool)
    (h : l1.find? p = none) : (l1 ++ l2).find? p = l2.find? p := by
  induction l1 with
  | nil => simp
  | cons a l ih =>
      cases hpa : p a
      · simp only [List.cons_append, List.find?_cons, hpa]
        apply ih
        simpa [List.find?_cons, hpa] using h
      · simp [List.find?_cons, hpa] at h

/-- After getOrCreateUserPoints, looking the user up finds exactly the
returned record. -/
theorem getOrCreateUserPoints_find (s : DbState) (uid : Int) :
    ((getOrCreateUserPoints s uid).2).points.find? (userIdEq uid) =
      some (getOrCreateUserPoints s uid).1 := by
  unfold getOrCreateUserPoints
  cases h : s.points.find? (userIdEq uid) with
  | some p => simpa using h
  | none =>
      simp only []
      rw [find?_append_of_none _ _ _ h]
      simp [userIdEq]

/-- getOrCreateUserPoints touches only the points table. -/
theorem getOrCreateUserPoints_frame (s : DbState) (uid : Int) :
    ((getOrCreateUserPoints s uid).2).games = s.games ∧
    ((getOrCreateUserPoints s uid).2).slots = s.slots ∧
    ((getOrCreateUserPoints s uid).2).nextGameId = s.nextGameId := by
  unfold getOrCreateUserPoints
  cases h : s.points.find? (userIdEq uid) <;> simp

/-- getOrCreateUserPoints is idempotent: a second call returns the same
record and does not change the state further. -/
theorem getOrCreateUserPoints_idem (s : DbState) (uid : Int) :
    getOrCreateUserPoints ((getOrCreateUserPoints s uid).2) uid =
      ((getOrCreateUserPoints s uid).1, (getOrCreateUserPoints s uid).2) := by
  have h := getOrCreateUserPoints_find s uid
  generalize hr : getOrCreateUserPoints s uid = r at h ⊢
  unfold getOrCreateUserPoints
  rw [h]

/-- The patch of updateUserBalance preserves the user key. -/
theorem userIdEq_preserved (uid : Int) (f : UserPoints → UserPoints)
    (hf : ∀ p, (f p).userId = p.userId) (p : UserPoints) :
    userIdEq uid (f p) = userIdEq uid p := by
  simp [userIdEq, hf]

/-- Looking a user up after a row update of that user yields the patched
record, whenever the patch preserves the user id. -/
theorem find?_updateUserPointsRows (ps : List UserPoints) (uid : Int)
    (f : UserPoints → UserPoints) (hf : ∀ p, (f p).userId = p.userId) :
    (updateUserPointsRows ps uid f).find? (userIdEq uid) =
      (ps.find? (userIdEq uid)).map f := by
  unfold updateUserPointsRows
  exact find?_selective_map ps (userIdEq uid) f (userIdEq_preserved uid f hf)

/-- Looking a game up after a row update of that game yields the patched
record, whenever the patch preserves the game id. -/
theorem find?_updateGames (gs : List Game) (gid : Nat)
    (f : Game → Game) (hf : ∀ g, (f g).id = g.id) :
    (updateGames gs gid f).find? (gameIdEq gid) = (gs.find? (gameIdEq gid)).map f := by
  unfold updateGames
  apply find?_selective_map
  intro g
  simp [gameIdEq, hf]

/-- If the slot-number scan fails, every probed number was occupied. -/
theorem findEmptySlotAux_none (occ : List Int) :
    ∀ (fuel : Nat) (i : Int), findEmptySlotAux occ i fuel = none →
      ∀ j : Int, i ≤ j → j < i + fuel → j ∈ occ := by
  intro fuel
  induction fuel with
  | zero =>
      intro i _ j hij hlt
      omega
  | succ n ih =>
      intro i h j hij hlt
      unfold findEmptySlotAux at h
      by_cases hmem : i ∈ occ
      · simp only [hmem, decide_True, if_true] at h
        by_cases hji : j = i
        · exact hji ▸ hmem
        · exact ih (i + 1) h j (by omega) (by omega)
      · simp [hmem] at h

/-- If the slot-number scan returns r, then r lies in the probed window, is
free, and every smaller probed number is occupied. -/
theorem findEmptySlotAux_some (occ : List Int) :
    ∀ (fuel : Nat) (i r : Int), findEmptySlotAux occ i fuel = some r →
      i ≤ r ∧ r < i + fuel ∧ r ∉ occ ∧ ∀ j : Int, i ≤ j → j < r → j ∈ occ := by
  intro fuel
  induction fuel with
  | zero =>
      intro i r h
      simp [findEmptySlotAux] at h
  | succ n ih =>
      intro i r h
      unfold findEmptySlotAux at h
      by_cases hmem : i ∈ occ
      · simp only [hmem, decide_True, if_true] at h
        obtain ⟨h1, h2, h3, h4⟩ := ih (i + 1) r h
        refine ⟨by omega, by omega, h3, ?_⟩
        intro j hij hjr
        by_cases hji : j = i
        · exact hji ▸ hmem
        · exact h4 j (by omega) hjr
      · simp only [hmem, decide_False, Bool.false_eq_true, if_false, Option.some.injEq] at h
        subst h
        exact ⟨le_refl i, by omega, hmem, fun j hij hjr => absurd hjr (by omega)⟩

/-- Fewer occupied slots than slot numbers leaves a free slot number: the
scan of addBotEntry always succeeds on a non-full board. -/
theorem findEmptySlot_exists (occ : List Int) (n : Nat) (h : occ.length < n) :
    ∃ i, findEmptySlot occ n = some i := by
  cases hfind : findEmptySlot occ n with
  | some i => exact ⟨i, rfl⟩
  | none =>
      exfalso
      have hall : ∀ j : Int, 1 ≤ j → j < 1 + n → j ∈ occ :=
        findEmptySlotAux_none occ n 1 hfind
      have hsub : Finset.Icc (1 : Int) (n : Int) ⊆ occ.toFinset := by
        intro j hj
        rw [Finset.mem_Icc] at hj
        rw [List.mem_toFinset]
        exact hall j hj.1 (by omega)
      have hcard : (Finset.Icc (1 : Int) (n : Int)).card = n := by
        rw [Int.card_Icc]
        omega
      have hle : (Finset.Icc (1 : Int) (n : Int)).card ≤ occ.toFinset.card :=
        Finset.card_le_card hsub
      have hl2 : occ.toFinset.card ≤ occ.length := occ.toFinset_card_le
      omega

/-- updateUserBalance touches only the points table. -/
theorem updateUserBalance_frame (s : DbState) (uid : Int) (a : Int) :
    (updateUserBalance s uid a).2.games = s.games ∧
    (updateUserBalance s uid a).2.slots = s.slots ∧
    (updateUserBalance s uid a).2.nextGameId = s.nextGameId := by
  obtain ⟨hg, hs, hn⟩ := getOrCreateUserPoints_frame s uid
  unfold updateUserBalance
  exact ⟨hg, hs, hn⟩

/-- A game whose status is spinning or completed never counts as active. -/
theorem activeForTier_false_of_status (t : Tier) (g : Game)
    (h : g.status = GameStatus.spinning ∨ g.status = GameStatus.completed) :
    activeForTier t g = false := by
  rcases h with h | h <;> simp [activeForTier, h]

/-- Filtering after a pointwise map that never creates the property keeps
the count from growing. -/
theorem length_filter_map_le {α : Type} (l : List α) (p : α → Bool) (u : α → α)
    (hmono : ∀ a, p (u a) = true → p a = true) :
    ((l.map u).filter p).length ≤ (l.filter p).length := by
  induction l with
  | nil => simp
  | cons a l ih =>
      simp only [List.map_cons, List.filter_cons]
      by_cases hu : p (u a) = true
      · rw [if_pos hu, if_pos (hmono a hu)]
        simpa using ih
      · rw [if_neg hu]
        by_cases ha : p a = true
        · rw [if_pos ha]
          exact le_trans ih (Nat.le_succ _)
        · rw [if_neg ha]
          exact ih

/-- A row update whose patch never produces an active game cannot increase
the active count. -/
theorem activeCountL_updateGames_le (t : Tier) (gs : List Game) (gid : Nat)
    (f : Game → Game) (hf : ∀ g, activeForTier t (f g) = false) :
    activeCountL t (updateGames gs gid f) ≤ activeCountL t gs := by
  apply length_filter_map_le
  intro g hg
  by_cases hid : gameIdEq gid g = true
  · rw [if_pos hid, hf g] at hg
    exact absurd hg (by simp)
  · rwa [if_neg hid] at hg

/-- Every game of the list is filling or completed. -/
def GoodStatuses (gs : List Game) : Prop :=
  ∀ g ∈ gs, g.status = GameStatus.filling ∨ g.status = GameStatus.completed

/-- The net effect of a settlement on the games table: either untouched, or
an id-selective patch to spinning followed by an id-selective patch whose
result is always completed. -/
def SettleShape (base post : List Game) : Prop :=
  post = base ∨
  ∃ gid f1 f2,
    (∀ g : Game, (f1 g).status = GameStatus.spinning) ∧
    (∀ g : Game, (f1 g).id = g.id) ∧
    (∀ g : Game, (f2 g).status = GameStatus.completed) ∧
    post = updateGames (updateGames base gid f1) gid f2

/-- A settlement-shaped change cannot increase any tier's active count. -/
theorem settleShape_count_le (t : Tier) (base post : List Game)
    (h : SettleShape base post) : activeCountL t post ≤ activeCountL t base := by
  rcases h with h | ⟨gid, f1, f2, h1, _, h2, heq⟩
  · rw [h]
  · subst heq
    calc activeCountL t (updateGames (updateGames base gid f1) gid f2)
        ≤ activeCountL t (updateGames base gid f1) :=
          activeCountL_updateGames_le t _ gid f2
            (fun g => activeForTier_false_of_status t _ (Or.inr (h2 g)))
      _ ≤ activeCountL t base :=
          activeCountL_updateGames_le t base gid f1
            (fun g => activeForTier_false_of_status t _ (Or.inl (h1 g)))

/-- A settlement-shaped change keeps every status filling-or-completed: the
intermediate spinning rows are exactly the ones the completion patch
overwrites. -/
theorem settleShape_good (base post : List Game)
    (h : SettleShape base post) (hg : GoodStatuses base) : GoodStatuses post := by
  rcases h with h | ⟨gid, f1, f2, _, hid, h2, heq⟩
  · rw [h]; exact hg
  · subst heq
    intro g2 hmem
    unfold updateGames at hmem
    rw [List.map_map] at hmem
    obtain ⟨g, hgmem, hEq⟩ := List.mem_map.mp hmem
    simp only [Function.comp] at hEq
    by_cases hid2 : gameIdEq gid g = true
    · rw [if_pos hid2] at hEq
      have hfid : gameIdEq gid (f1 g) = true := by
        have : g.id = gid := by simpa [gameIdEq] using hid2
        simp [gameIdEq, hid g, this]
      rw [if_pos hfid] at hEq
      right
      rw [← hEq]
      exact h2 (f1 g)
    · rw [if_neg hid2, if_neg hid2] at hEq
      rw [← hEq]
      exact hg g hgmem

/-- spinGame changes the games table in settlement shape. -/
theorem spinGame_settleShape (s : DbState) (gid : Nat) (d : Int) (now : Nat) :
    SettleShape s.games (spinGame s gid d now).2.games := by
  unfold spinGame
  split
  · exact Or.inl rfl
  · next st hstate =>
      right
      refine ⟨gid, fun g => { g with status := .spinning }, spinResultUpdate st d now,
        fun g => rfl, fun g => rfl, fun g => rfl, ?_⟩
      dsimp only
      split
      · split
        · exact (updateUserBalance_frame _ _ (spinPayout st d)).1
        · rfl
      · rfl

/-- Transport of the settlement shape along an equality of base tables. -/
theorem checkAndSpinIfFull_settleShape_of_games_eq (s0 : DbState) (base : List Game)
    (gid : Nat) (d : Int) (now : Nat) (h : s0.games = base) :
    SettleShape base (checkAndSpinIfFull s0 gid d now).2.games := by
  subst h
  unfold checkAndSpinIfFull
  split
  · exact Or.inl rfl
  · split
    · exact Or.inl rfl
    · exact spinGame_settleShape s0 gid d now

/-- checkAndSpinIfFull changes the games table in settlement shape. -/
theorem checkAndSpinIfFull_settleShape (s : DbState) (gid : Nat) (d : Int) (now : Nat) :
    SettleShape s.games (checkAndSpinIfFull s gid d now).2.games :=
  checkAndSpinIfFull_settleShape_of_games_eq s s.games gid d now rfl

/-- addBotEntry never touches the games table. -/
theorem addBotEntry_games (s : DbState) (gid : Nat) (nm : String) :
    (addBotEntry s gid nm).2.games = s.games := by
  unfold addBotEntry
  repeat' split
  all_goals rfl

/-- buySpot changes the games table in settlement shape. -/
theorem buySpot_settleShape (s : DbState) (gid : Nat) (uid : Int) (sn : Int)
    (d : Int) (now : Nat) :
    SettleShape s.games (buySpot s gid uid sn d now).2.games := by
  unfold buySpot
  split
  · exact Or.inl rfl
  · next st hstate =>
      split
      · exact Or.inl rfl
      · dsimp only
        split
        · exact Or.inl (getOrCreateUserPoints_frame s uid).1
        · dsimp only
          apply checkAndSpinIfFull_settleShape_of_games_eq
          have h1 := (updateUserBalance_frame (getUserPoints s uid).2 uid
            (-(st.game.entryCost))).1
          have h2 := (getOrCreateUserPoints_frame s uid).1
          exact h1.trans h2

/-- The configs are keyed consistently: each tier's config names that tier. -/
theorem GAME_CONFIGS_tier (t : Tier) : (GAME_CONFIGS t).tier = t := by
  cases t <;> rfl

/-- Appending one game adds its own active indicator to the count. -/
theorem activeCountL_append (t : Tier) (gs : List Game) (g : Game) :
    activeCountL t (gs ++ [g]) =
      activeCountL t gs + (if activeForTier t g = true then 1 else 0) := by
  unfold activeCountL
  rw [List.filter_append, List.length_append]
  congr 1
  cases hp : activeForTier t g <;> simp [List.filter_cons, hp]

/-- When the active-game query comes back empty, the active count is zero. -/
theorem activeCountL_eq_zero_of_find?_none (t : Tier) (gs : List Game)
    (h : gs.find? (activeForTier t) = none) : activeCountL t gs = 0 := by
  unfold activeCountL
  induction gs with
  | nil => rfl
  | cons g gs ih =>
      cases hp : activeForTier t g
      · rw [List.filter_cons, if_neg (by simp [hp])]
        apply ih
        simpa [List.find?_cons, hp] using h
      · exfalso
        simp [List.find?_cons, hp] at h

/-- The per-tier invariant: at most one active game per tier and every game
filling or completed. -/
def Inv (s : DbState) : Prop :=
  (∀ t, activeCountL t s.games ≤ 1) ∧ GoodStatuses s.games

/-- Every engine operation preserves the per-tier invariant. -/
theorem inv_step (s : DbState) (op : Op) (h : Inv s) : Inv (step s op) := by
  obtain ⟨hcount, hgood⟩ := h
  have settle : ∀ s2 : DbState, SettleShape s.games s2.games → Inv s2 := by
    intro s2 hshape
    exact ⟨fun t => le_trans (settleShape_count_le t _ _ hshape) (hcount t),
      settleShape_good _ _ hshape hgood⟩
  cases op with
  | getOrCreate t0 =>
      show Inv (getOrCreateActiveGame s t0).2
      unfold getOrCreateActiveGame
      cases hfind : s.games.find? (activeForTier t0) with
      | some g => exact ⟨hcount, hgood⟩
      | none =>
          unfold createGame
          constructor
          · intro t
            dsimp only
            rw [activeCountL_append]
            by_cases ht : t = t0
            · subst ht
              rw [activeCountL_eq_zero_of_find?_none t s.games hfind]
              have hact : activeForTier t
                  ({ id := s.nextGameId, tier := (GAME_CONFIGS t).tier,
                     slotCount := (GAME_CONFIGS t).slotCount,
                     entryCost := (GAME_CONFIGS t).entryCost,
                     edgePct := (GAME_CONFIGS t).edgePct,
                     status := .filling } : Game) = true := by
                simp [activeForTier, GAME_CONFIGS_tier]
              rw [if_pos hact]
            · have hne : (GAME_CONFIGS t0).tier ≠ t := by
                rw [GAME_CONFIGS_tier]
                exact fun hh => ht hh.symm
              have hact : activeForTier t
                  ({ id := s.nextGameId, tier := (GAME_CONFIGS t0).tier,
                     slotCount := (GAME_CONFIGS t0).slotCount,
                     entryCost := (GAME_CONFIGS t0).entryCost,
                     edgePct := (GAME_CONFIGS t0).edgePct,
                     status := .filling } : Game) = false := by
                simp [activeForTier, hne]
              rw [if_neg (by simp [hact])]
              simpa using hcount t
          · intro g hg
            dsimp only at hg
            rcases List.mem_append.mp hg with hg | hg
            · exact hgood g hg
            · rw [List.mem_singleton] at hg
              subst hg
              exact Or.inl rfl
  | addBot gid nm =>
      refine ⟨fun t => ?_, ?_⟩
      · show activeCountL t (addBotEntry s gid nm).2.games ≤ 1
        rw [addBotEntry_games]
        exact hcount t
      · show GoodStatuses (addBotEntry s gid nm).2.games
        rw [addBotEntry_games]
        exact hgood
  | buy gid uid sn d now => exact settle _ (buySpot_settleShape s gid uid sn d now)
  | checkSpin gid d now => exact settle _ (checkAndSpinIfFull_settleShape s gid d now)
  | spin gid d now => exact settle _ (spinGame_settleShape s gid d now)

/-- Running any operation list preserves the invariant. -/
theorem inv_runOps (s : DbState) (h : Inv s) (ops : List Op) : Inv (runOps s ops) := by
  induction ops generalizing s with
  | nil => exact h
  | cons op ops ih => exact ih (step s op) (inv_step s op h)

/-- The snapshot getGameState builds for an existing game. -/
def mkView (s : DbState) (gid : Nat) (g : Game) : GameStateView :=
  ⟨g, gameSlotsOf s gid, (gameSlotsOf s gid).length,
    (g.slotCount : Int) - ((gameSlotsOf s gid).length : Int)⟩

@[simp]
theorem mkView_game (s : DbState) (gid : Nat) (g : Game) : (mkView s gid g).game = g := rfl

@[simp]
theorem mkView_slots (s : DbState) (gid : Nat) (g : Game) :
    (mkView s gid g).slots = gameSlotsOf s gid := rfl

@[simp]
theorem mkView_filledCount (s : DbState) (gid : Nat) (g : Game) :
    (mkView s gid g).filledCount = (gameSlotsOf s gid).length := rfl

/-- getGameState on an existing game returns the assembled snapshot. -/
theorem getGameState_eq_some (s : DbState) (gid : Nat) (g : Game)
    (hg : findGame s gid = some g) : getGameState s gid = some (mkView s gid g) := by
  unfold getGameState
  rw [hg]
  rfl

/-- getGameState fails exactly on unknown game ids. -/
theorem getGameState_eq_none (s : DbState) (gid : Nat)
    (hg : findGame s gid = none) : getGameState s gid = none := by
  unfold getGameState
  rw [hg]

/-- The ledger view of a user is stable under the read-or-create step. -/
theorem userPointsView_getOrCreate (s : DbState) (uid : Int) :
    userPointsView (getOrCreateUserPoints s uid).2 uid = userPointsView s uid := by
  unfold userPointsView
  rw [getOrCreateUserPoints_idem s uid]

/-- C6: after any sequence of engine operations from the empty store, each
tier has at most one game in an active status (filling or full), and every
persisted game is filling, full, or completed — so all games of a tier
other than its single active one are completed. -/
theorem tier_active_game_invariant (ops : List Op) (t : Tier) :
    activeCountL t (runOps initState ops).games ≤ 1 ∧
    ∀ g ∈ (runOps initState ops).games,
      g.status = GameStatus.filling ∨ g.status = GameStatus.full ∨
        g.status = GameStatus.completed := by
  have hinit : Inv initState := by
    constructor
    · intro t0
      simp [initState, activeCountL]
    · intro g hg
      simp [initState] at hg
  have h := inv_runOps initState hinit ops
  refine ⟨h.1 t, fun g hg => ?_⟩
  rcases h.2 g hg with hs | hs
  · exact Or.inl hs
  · exact Or.inr (Or.inr hs)

/-- Witness for C6 at a concrete operation sequence. -/
theorem tier_active_game_invariant_witness :
    activeCountL Tier.high
      (runOps initState
        [Op.getOrCreate Tier.high, Op.addBot 1 "T", Op.getOrCreate Tier.low,
         Op.spin 1 3 50, Op.getOrCreate Tier.high]).games ≤ 1 :=
  (tier_active_game_invariant
    [Op.getOrCreate Tier.high, Op.addBot 1 "T", Op.getOrCreate Tier.low,
     Op.spin 1 3 50, Op.getOrCreate Tier.high] Tier.high).1

/-- C10: the first points lookup for an unknown user inserts and returns the
default record (balance 30000, totalEarned 30000, totalWagered 0, no daily
reward stamp); a lookup for a known user returns the stored record and
leaves the state untouched. -/
theorem getOrCreateUserPoints_spec (s : DbState) (uid : Int) :
    (s.points.find? (userIdEq uid) = none →
      getUserPoints s uid =
        (⟨uid, 30000, 30000, 0, none⟩,
         { s with points := s.points ++ [⟨uid, 30000, 30000, 0, none⟩] })) ∧
    (∀ p, s.points.find? (userIdEq uid) = some p → getUserPoints s uid = (p, s)) := by
  constructor
  · intro h
    unfold getUserPoints getOrCreateUserPoints
    rw [h]
  · intro p h
    unfold getUserPoints getOrCreateUserPoints
    rw [h]

/-- Witness for C10: a fresh user and then the same user again. -/
theorem getOrCreateUserPoints_spec_witness :
    getUserPoints initState 5 =
      (⟨5, 30000, 30000, 0, none⟩,
       ⟨[], [], [⟨5, 30000, 30000, 0, none⟩], 1⟩) ∧
    getUserPoints (⟨[], [], [⟨5, 30000, 30000, 0, none⟩], 1⟩ : DbState) 5 =
      (⟨5, 30000, 30000, 0, none⟩,
       ⟨[], [], [⟨5, 30000, 30000, 0, none⟩], 1⟩) := by
  constructor
  · exact (getOrCreateUserPoints_spec initState 5).1 (by decide)
  · exact (getOrCreateUserPoints_spec (⟨[], [], [⟨5, 30000, 30000, 0, none⟩], 1⟩ : DbState) 5).2
      ⟨5, 30000, 30000, 0, none⟩ (by decide)

/-- C3: buySpot fails with GameNotFound on an unknown game id, with
SlotTaken when the slot number is already occupied, and with
InsufficientFunds when the user's observed balance is below the entry cost;
in each failure case no slot is inserted and the user's observable balance,
totalEarned and totalWagered are unchanged (in the first two cases the
state is literally untouched). -/
theorem buySpot_failure_no_partial_effect (s : DbState) (gid : Nat)
    (uid sn d : Int) (now : Nat) :
    (findGame s gid = none →
      buySpot s gid uid sn d now = (.error .gameNotFound, s)) ∧
    (∀ g, findGame s gid = some g →
      (gameSlotsOf s gid).any (fun sl => decide (sl.slotNumber = sn)) = true →
      buySpot s gid uid sn d now = (.error .slotTaken, s)) ∧
    (∀ g, findGame s gid = some g →
      (gameSlotsOf s gid).any (fun sl => decide (sl.slotNumber = sn)) = false →
      (getOrCreateUserPoints s uid).1.balance < g.entryCost →
      (buySpot s gid uid sn d now).1 = .error .insufficientFunds ∧
      (buySpot s gid uid sn d now).2.slots = s.slots ∧
      (buySpot s gid uid sn d now).2.games = s.games ∧
      userPointsView (buySpot s gid uid sn d now).2 uid = userPointsView s uid) := by
  refine ⟨?_, ?_, ?_⟩
  · intro h
    unfold buySpot
    rw [getGameState_eq_none s gid h]
  · intro g hg hany
    unfold buySpot
    rw [getGameState_eq_some s gid g hg]
    dsimp only
    rw [mkView_slots, if_pos hany]
  · intro g hg hnone hbal
    unfold buySpot getUserPoints
    rw [getGameState_eq_some s gid g hg]
    dsimp only
    rw [mkView_slots, hnone]
    simp only [Bool.false_eq_true, if_false]
    rw [mkView_game]
    rw [if_pos hbal]
    refine ⟨rfl, ?_, ?_, ?_⟩
    · exact (getOrCreateUserPoints_frame s uid).2.1
    · exact (getOrCreateUserPoints_frame s uid).1
    · exact userPointsView_getOrCreate s uid

/-- A fresh high-tier game used by the failure witnesses. -/
def gW : Game :=
  { id := 1, tier := .high, slotCount := 6, entryCost := 25, edgePct := -20, status := .filling }

/-- A state in which slot 2 of game 1 is already taken. -/
def sTaken : DbState := ⟨[gW], [⟨1, 2, .player, "4", 25⟩], [⟨4, 100, 0, 0, none⟩], 2⟩

/-- A state in which user 4 cannot afford the 25-point entry cost. -/
def sPoor : DbState := ⟨[gW], [], [⟨4, 10, 0, 0, none⟩], 2⟩

/-- Witness for C3: the three failure modes on concrete stores. -/
theorem buySpot_failure_no_partial_effect_witness :
    buySpot initState 1 4 2 1 0 = (.error .gameNotFound, initState) ∧
    buySpot sTaken 1 4 2 1 0 = (.error .slotTaken, sTaken) ∧
    ((buySpot sPoor 1 4 2 1 0).1 = .error .insufficientFunds ∧
     (buySpot sPoor 1 4 2 1 0).2.slots = sPoor.slots ∧
     (buySpot sPoor 1 4 2 1 0).2.games = sPoor.games ∧
     userPointsView (buySpot sPoor 1 4 2 1 0).2 4 = userPointsView sPoor 4) := by
  refine ⟨?_, ?_, ?_⟩
  · exact (buySpot_failure_no_partial_effect initState 1 4 2 1 0).1 (by decide)
  · exact (buySpot_failure_no_partial_effect sTaken 1 4 2 1 0).2.1 gW (by decide) (by decide)
  · exact (buySpot_failure_no_partial_effect sPoor 1 4 2 1 0).2.2 gW (by decide) (by decide)
      (by decide)

/-- C4: addBotEntry is a no-op returning false unless the game exists with
status filling and a free slot, in which case it inserts exactly one bot
slot carrying the game's entry cost at the lowest-numbered free slot number
(an integer in [1, slotCount]), touching nothing else and returning true. -/
theorem addBotEntry_spec (s : DbState) (gid : Nat) (nm : String) :
    (findGame s gid = none → addBotEntry s gid nm = (false, s)) ∧
    (∀ g, findGame s gid = some g →
      ¬(g.status = GameStatus.filling ∧ (gameSlotsOf s gid).length < g.slotCount) →
      addBotEntry s gid nm = (false, s)) ∧
    (∀ g, findGame s gid = some g → g.status = GameStatus.filling →
      (gameSlotsOf s gid).length < g.slotCount →
      ∃ i, addBotEntry s gid nm =
          (true, { s with slots := s.slots ++ [⟨gid, i, .bot, nm, g.entryCost⟩] }) ∧
        1 ≤ i ∧ i ≤ (g.slotCount : Int) ∧
        i ∉ (gameSlotsOf s gid).map (fun sl => sl.slotNumber) ∧
        ∀ j : Int, 1 ≤ j → j < i →
          j ∈ (gameSlotsOf s gid).map (fun sl => sl.slotNumber)) := by
  refine ⟨?_, ?_, ?_⟩
  · intro h
    unfold addBotEntry
    rw [getGameState_eq_none s gid h]
  · intro g hg hcond
    unfold addBotEntry
    rw [getGameState_eq_some s gid g hg]
    dsimp only
    rw [mkView_game, mkView_filledCount]
    by_cases hst : g.status = GameStatus.filling
    · have hge : ¬ ((gameSlotsOf s gid).length < g.slotCount) :=
        fun hlt => hcond ⟨hst, hlt⟩
      rw [if_neg (not_not_intro hst), if_pos (Nat.le_of_not_lt hge)]
    · rw [if_pos hst]
  · intro g hg hst hlt
    unfold addBotEntry
    rw [getGameState_eq_some s gid g hg]
    dsimp only
    rw [mkView_game, mkView_filledCount, mkView_slots]
    rw [if_neg (not_not_intro hst), if_neg (by omega)]
    obtain ⟨i, hi⟩ := findEmptySlot_exists
      ((gameSlotsOf s gid).map (fun sl => sl.slotNumber)) g.slotCount
      (by simpa using hlt)
    rw [hi]
    unfold findEmptySlot at hi
    obtain ⟨h1, h2, h3, h4⟩ := findEmptySlotAux_some
      ((gameSlotsOf s gid).map (fun sl => sl.slotNumber)) g.slotCount 1 i hi
    exact ⟨i, rfl, h1, by omega, h3, fun j hj1 hji => h4 j hj1 hji⟩

/-- A half-filled board used by the C4 witness: slots 1 and 3 taken. -/
def sHalf : DbState :=
  ⟨[gW], [⟨1, 1, .player, "4", 25⟩, ⟨1, 3, .bot, "K", 25⟩], [⟨4, 100, 0, 0, none⟩], 2⟩

/-- Witness for C4: on the half-filled board the bot lands on slot 2, the
lowest free number. -/
theorem addBotEntry_spec_witness :
    addBotEntry sHalf 1 "B" =
      (true, { sHalf with slots := sHalf.slots ++ [⟨1, 2, .bot, "B", 25⟩] }) := by
  obtain ⟨i, heq, h1, h6, hnot, hmin⟩ :=
    (addBotEntry_spec sHalf 1 "B").2.2 gW (by decide) (by decide) (by decide)
  have hocc : (gameSlotsOf sHalf 1).map (fun sl => sl.slotNumber) = [1, 3] := by decide
  rw [hocc] at hnot hmin
  have hne1 : i ≠ 1 := by
    intro h
    exact hnot (by simp [h])
  have hle2 : ¬ (2 < i) := by
    intro hlt
    have h2 := hmin 2 (by norm_num) hlt
    simp at h2
  have hi2 : i = 2 := by omega
  rw [hi2] at heq
  exact heq

/-- C7: when the drawn winning slot is occupied by a bot, settlement returns
true and persists winnerType bot, payout 0 and the 10-percent commission,
and the points table is left entirely untouched. -/
theorem spinGame_bot_winner_frame (s : DbState) (gid : Nat) (d : Int) (now : Nat)
    (g : Game) (sl : GameSlot)
    (hg : findGame s gid = some g)
    (hsl : (gameSlotsOf s gid).find? (fun x => decide (x.slotNumber = d)) = some sl)
    (hbot : sl.ownerType = OwnerType.bot) :
    (spinGame s gid d now).1 = true ∧
    (spinGame s gid d now).2.points = s.points ∧
    (spinGame s gid d now).2.games.find? (gameIdEq gid) =
      some { g with
        winningSlot := some d
        winnerType := some WinnerType.bot
        winnerId := some sl.ownerId
        payout := some 0
        houseCommission :=
          some (jsRound ((((gameSlotsOf s gid).length * g.entryCost : Int) : ℚ) * (1 / 10)))
        status := GameStatus.completed
        completedAt := some now } := by
  have hgs := getGameState_eq_some s gid g hg
  have hwslot : winnerSlotOf (mkView s gid g) d = some sl := by
    unfold winnerSlotOf
    rw [mkView_slots]
    exact hsl
  have hwt : spinWinnerType (mkView s gid g) d = WinnerType.bot := by
    simp [spinWinnerType, hwslot, hbot, ownerToWinner]
  have hwid : spinWinnerId (mkView s gid g) d = sl.ownerId := by
    simp [spinWinnerId, hwslot]
  unfold spinGame
  rw [hgs]
  dsimp only
  rw [hwt, if_neg (by decide : ¬ (WinnerType.bot = WinnerType.player))]
  refine ⟨rfl, rfl, ?_⟩
  show (updateGames (updateGames s.games gid _) gid
    (spinResultUpdate (mkView s gid g) d now)).find? (gameIdEq gid) = _
  rw [find?_updateGames (updateGames s.games gid
      (fun g0 => { g0 with status := GameStatus.spinning })) gid
      (spinResultUpdate (mkView s gid g) d now) (fun g0 => rfl)]
  rw [find?_updateGames s.games gid
      (fun g0 => { g0 with status := GameStatus.spinning }) (fun g0 => rfl)]
  unfold findGame at hg
  rw [hg]
  simp only [Option.map_some']
  unfold spinResultUpdate
  rw [hwt, hwid]
  simp [spinCommission, totalPotOf]

/-- A low-tier board with 3 player and 9 bot slots, pot 60. -/
def gC7 : Game :=
  { id := 1, tier := .low, slotCount := 12, entryCost := 5, edgePct := -2, status := .filling }

/-- The 12 slots of the C7 witness board. -/
def slotsC7 : List GameSlot :=
  [⟨1, 1, .player, "1", 5⟩, ⟨1, 2, .player, "2", 5⟩, ⟨1, 3, .player, "3", 5⟩,
   ⟨1, 4, .bot, "K", 5⟩, ⟨1, 5, .bot, "T", 5⟩, ⟨1, 6, .bot, "M", 5⟩,
   ⟨1, 7, .bot, "S", 5⟩, ⟨1, 8, .bot, "L", 5⟩, ⟨1, 9, .bot, "R", 5⟩,
   ⟨1, 10, .bot, "N", 5⟩, ⟨1, 11, .bot, "C", 5⟩, ⟨1, 12, .bot, "D", 5⟩]

/-- The C7 witness store. -/
def sC7 : DbState :=
  ⟨[gC7], slotsC7, [⟨1, 200, 0, 0, none⟩, ⟨2, 300, 0, 0, none⟩, ⟨3, 400, 0, 0, none⟩], 2⟩

/-- Witness for C7: draw 5 hits bot T; payout 0, commission 6, ledger rows
untouched. -/
theorem spinGame_bot_winner_frame_witness :
    (spinGame sC7 1 5 9).1 = true ∧
    (spinGame sC7 1 5 9).2.points = sC7.points ∧
    (spinGame sC7 1 5 9).2.games.find? (gameIdEq 1) =
      some { gC7 with
        winningSlot := some 5
        winnerType := some WinnerType.bot
        winnerId := some "T"
        payout := some 0
        houseCommission := some 6
        status := GameStatus.completed
        completedAt := some 9 } := by
  have h := spinGame_bot_winner_frame sC7 1 5 9 gC7 ⟨1, 5, .bot, "T", 5⟩
    (by decide) (by decide) rfl
  refine ⟨h.1, h.2.1, ?_⟩
  rw [h.2.2]
  norm_num [jsRound, gameSlotsOf, sC7, slotsC7, gC7]

/-- C8: when the drawn winning slot claims a player whose recorded owner id
does not parse as a number, settlement still completes: spinGame returns
true, the game is persisted with status completed and its commission
recorded, and no ledger row changes. -/
theorem spinGame_unparseable_winner_safe (s : DbState) (gid : Nat) (d : Int) (now : Nat)
    (g : Game) (sl : GameSlot)
    (hg : findGame s gid = some g)
    (hsl : (gameSlotsOf s gid).find? (fun x => decide (x.slotNumber = d)) = some sl)
    (hpl : sl.ownerType = OwnerType.player)
    (hparse : jsParseInt sl.ownerId = none) :
    (spinGame s gid d now).1 = true ∧
    (spinGame s gid d now).2.points = s.points ∧
    ∃ g2, (spinGame s gid d now).2.games.find? (gameIdEq gid) = some g2 ∧
      g2.status = GameStatus.completed ∧
      g2.houseCommission =
        some (jsRound ((((gameSlotsOf s gid).length * g.entryCost : Int) : ℚ) * (1 / 10))) := by
  have hgs := getGameState_eq_some s gid g hg
  have hwslot : winnerSlotOf (mkView s gid g) d = some sl := by
    unfold winnerSlotOf
    rw [mkView_slots]
    exact hsl
  have hwt : spinWinnerType (mkView s gid g) d = WinnerType.player := by
    simp [spinWinnerType, hwslot, hpl, ownerToWinner]
  have hwid : spinWinnerId (mkView s gid g) d = sl.ownerId := by
    simp [spinWinnerId, hwslot]
  unfold spinGame
  rw [hgs]
  dsimp only
  rw [hwt, if_pos rfl, hwid, hparse]
  refine ⟨rfl, rfl, ?_⟩
  refine ⟨spinResultUpdate (mkView s gid g) d now { g with status := .spinning }, ?_, rfl, rfl⟩
  show (updateGames (updateGames s.games gid _) gid
    (spinResultUpdate (mkView s gid g) d now)).find? (gameIdEq gid) = _
  rw [find?_updateGames (updateGames s.games gid
      (fun g0 => { g0 with status := GameStatus.spinning })) gid
      (spinResultUpdate (mkView s gid g) d now) (fun g0 => rfl)]
  rw [find?_updateGames s.games gid
      (fun g0 => { g0 with status := GameStatus.spinning }) (fun g0 => rfl)]
  unfold findGame at hg
  rw [hg]
  simp only [Option.map_some']

/-- A game whose slot 1 claims a player with unparseable owner id. -/
def gC8 : Game :=
  { id := 1, tier := .high, slotCount := 6, entryCost := 25, edgePct := -20, status := .filling }

/-- The C8 witness store: player slot with owner id abc, one bot slot. -/
def sC8 : DbState :=
  ⟨[gC8], [⟨1, 1, .player, "abc", 25⟩, ⟨1, 2, .bot, "T", 25⟩], [⟨4, 100, 0, 0, none⟩], 2⟩

/-- Witness for C8: draw 1 hits the unparseable player slot; settlement
completes with commission 5 and no ledger change. -/
theorem spinGame_unparseable_winner_safe_witness :
    (spinGame sC8 1 1 4).1 = true ∧
    (spinGame sC8 1 1 4).2.points = sC8.points ∧
    ((spinGame sC8 1 1 4).2.games.find? (gameIdEq 1)).map
        (fun g2 => (g2.status, g2.houseCommission)) =
      some (GameStatus.completed, some 5) := by
  have h := spinGame_unparseable_winner_safe sC8 1 1 4 gC8 ⟨1, 1, .player, "abc", 25⟩
    (by decide) (by decide) rfl (by decide)
  obtain ⟨g2, hfind, hstat, hcomm⟩ := h.2.2
  refine ⟨h.1, h.2.1, ?_⟩
  rw [hfind]
  simp only [Option.map_some']
  rw [hstat, hcomm]
  norm_num [jsRound, gameSlotsOf, sC8, gC8]

/-- A store whose user 1 already claimed the daily reward on 2026-10-11. -/
def sClaimed : DbState := ⟨[], [], [⟨1, 500, 700, 0, some ⟨2026, 10, 11, 0⟩⟩], 1⟩

/-- Counterexample for C9 as stated: for a user who already claimed earlier
the same calendar day, two successive same-day calls return false both
times (not true then false) and the balance never increases. -/
theorem claimDailyReward_already_claimed_counterexample :
    sameCalendarDay ⟨2026, 10, 11, 300⟩ ⟨2026, 10, 11, 400⟩ = true ∧
    (applyDailyReward sClaimed 1 ⟨2026, 10, 11, 300⟩).1 = false ∧
    (applyDailyReward (applyDailyReward sClaimed 1 ⟨2026, 10, 11, 300⟩).2 1
      ⟨2026, 10, 11, 400⟩).1 = false ∧
    userPointsView (applyDailyReward (applyDailyReward sClaimed 1
      ⟨2026, 10, 11, 300⟩).2 1 ⟨2026, 10, 11, 400⟩).2 1 = userPointsView sClaimed 1 := by
  decide

/-- C9 (amended): for every user who has not already claimed the reward on
that calendar day, two successive same-day claims return true then false,
the balance and totalEarned rise by exactly 50000 once, the day stamp is
set by the first call, and the second call leaves the state untouched. -/
theorem claimDailyReward_once_per_day (s : DbState) (uid : Int) (t1 t2 : DateTime)
    (hday : sameCalendarDay t1 t2 = true)
    (hfresh : claimedOn (getOrCreateUserPoints s uid).1.lastDailyReward t1 = false) :
    (applyDailyReward s uid t1).1 = true ∧
    (applyDailyReward (applyDailyReward s uid t1).2 uid t2).1 = false ∧
    (applyDailyReward (applyDailyReward s uid t1).2 uid t2).2 =
      (applyDailyReward s uid t1).2 ∧
    userPointsView (applyDailyReward s uid t1).2 uid =
      ((getOrCreateUserPoints s uid).1.balance + 50000,
       (getOrCreateUserPoints s uid).1.totalEarned + 50000,
       (getOrCreateUserPoints s uid).1.totalWagered) ∧
    (getOrCreateUserPoints (applyDailyReward s uid t1).2 uid).1.lastDailyReward =
      some t1 := by
  have hfind0 := getOrCreateUserPoints_find s uid
  set r := getOrCreateUserPoints s uid with hr
  have h1 : applyDailyReward s uid t1 =
      (true, { r.2 with points := updateUserPointsRows r.2.points uid (fun p =>
        { p with
          balance := r.1.balance + 50000
          totalEarned := r.1.totalEarned + 50000
          lastDailyReward := some t1 }) }) := by
    unfold applyDailyReward
    rw [← hr]
    simp only [hfresh, Bool.false_eq_true, if_false]
  have hfind1 : (applyDailyReward s uid t1).2.points.find? (userIdEq uid) =
      some { r.1 with
        balance := r.1.balance + 50000
        totalEarned := r.1.totalEarned + 50000
        lastDailyReward := some t1 } := by
    rw [h1]
    dsimp only
    rw [find?_updateUserPointsRows r.2.points uid (fun p =>
      { p with
        balance := r.1.balance + 50000
        totalEarned := r.1.totalEarned + 50000
        lastDailyReward := some t1 }) (fun p => rfl)]
    rw [hfind0]
    rfl
  have hgoc : getOrCreateUserPoints (applyDailyReward s uid t1).2 uid =
      ({ r.1 with
          balance := r.1.balance + 50000
          totalEarned := r.1.totalEarned + 50000
          lastDailyReward := some t1 }, (applyDailyReward s uid t1).2) := by
    unfold getOrCreateUserPoints
    rw [hfind1]
  have h2 : applyDailyReward (applyDailyReward s uid t1).2 uid t2 =
      (false, (applyDailyReward s uid t1).2) := by
    generalize hX : (applyDailyReward s uid t1).2 = X at hgoc ⊢
    unfold applyDailyReward
    rw [hgoc]
    dsimp only
    have hcl : claimedOn (some t1) t2 = true := by
      simpa [claimedOn] using hday
    rw [hcl, if_pos rfl]
  refine ⟨by rw [h1], by rw [h2], by rw [h2], ?_, by rw [hgoc]⟩
  unfold userPointsView
  rw [hgoc]

/-- Witness for the amended C9 at a fresh user. -/
theorem claimDailyReward_once_per_day_witness :
    (applyDailyReward initState 8 ⟨2026, 10, 11, 100⟩).1 = true ∧
    (applyDailyReward (applyDailyReward initState 8 ⟨2026, 10, 11, 100⟩).2 8
      ⟨2026, 10, 11, 900⟩).1 = false ∧
    (applyDailyReward (applyDailyReward initState 8 ⟨2026, 10, 11, 100⟩).2 8
      ⟨2026, 10, 11, 900⟩).2 = (applyDailyReward initState 8 ⟨2026, 10, 11, 100⟩).2 ∧
    userPointsView (applyDailyReward initState 8 ⟨2026, 10, 11, 100⟩).2 8 =
      ((getOrCreateUserPoints initState 8).1.balance + 50000,
       (getOrCreateUserPoints initState 8).1.totalEarned + 50000,
       (getOrCreateUserPoints initState 8).1.totalWagered) ∧
    (getOrCreateUserPoints (applyDailyReward initState 8 ⟨2026, 10, 11, 100⟩).2 8).1.lastDailyReward =
      some ⟨2026, 10, 11, 100⟩ :=
  claimDailyReward_once_per_day initState 8 ⟨2026, 10, 11, 100⟩ ⟨2026, 10, 11, 900⟩
    (by decide) (by decide)

/-- The C1 board: high tier, all six slots player-owned, pot 150. -/
def gC1 : Game :=
  { id := 1, tier := .high, slotCount := 6, entryCost := 25, edgePct := -20, status := .filling }

/-- The six player slots of the C1 board. -/
def slotsC1 : List GameSlot :=
  [⟨1, 1, .player, "1", 25⟩, ⟨1, 2, .player, "2", 25⟩, ⟨1, 3, .player, "3", 25⟩,
   ⟨1, 4, .player, "4", 25⟩, ⟨1, 5, .player, "5", 25⟩, ⟨1, 6, .player, "6", 25⟩]

/-- The C1 witness store. -/
def sC1 : DbState :=
  ⟨[gC1], slotsC1,
   [⟨1, 1000, 0, 0, none⟩, ⟨2, 1000, 0, 0, none⟩, ⟨3, 1000, 0, 0, none⟩,
    ⟨4, 1000, 0, 0, none⟩, ⟨5, 1000, 0, 0, none⟩, ⟨6, 1000, 0, 0, none⟩], 2⟩

/-- C1: on the all-player high-tier board (slotCount 6, entryCost 25,
edgePct -20, pot 150), any drawn slot is a player slot and settlement
persists payout 120 = round((150 / 1.0) * 0.8 / 5) * 5 and house commission
15 = round(150 * 0.1). -/
theorem spinGame_allPlayers_high_payout (d : Int) (h1 : 1 ≤ d) (h6 : d ≤ 6) :
    ((spinGame sC1 1 d 77).2.games.find? (gameIdEq 1)).map
        (fun g => (g.payout, g.houseCommission)) = some (some 120, some 15) := by
  have hp1 : jsParseInt "1" = some 1 := by decide
  have hp2 : jsParseInt "2" = some 2 := by decide
  have hp3 : jsParseInt "3" = some 3 := by decide
  have hp4 : jsParseInt "4" = some 4 := by decide
  have hp5 : jsParseInt "5" = some 5 := by decide
  have hp6 : jsParseInt "6" = some 6 := by decide
  interval_cases d <;>
    · simp [spinGame, getGameState, findGame, gameIdEq, gameSlotsOf, updateGame,
        updateGames, sC1, gC1, slotsC1, spinWinnerType, winnerSlotOf, spinWinnerId,
        ownerToWinner, playerSlotCount, totalPotOf, spinPayout, spinCommission,
        spinResultUpdate, jsRound, hp1, hp2, hp3, hp4, hp5, hp6, updateUserBalance,
        getOrCreateUserPoints, userIdEq, updateUserPointsRows]
      norm_num

/-- Witness for C1 at draw 4. -/
theorem spinGame_allPlayers_high_payout_witness :
    ((spinGame sC1 1 4 77).2.games.find? (gameIdEq 1)).map
        (fun g => (g.payout, g.houseCommission)) = some (some 120, some 15) :=
  spinGame_allPlayers_high_payout 4 (by norm_num) (by norm_num)

/-- A completed, fully settled high-tier game: winner slot 2, payout 120
already paid, completed at time 100. -/
def gDone : Game :=
  { id := 1, tier := .high, slotCount := 6, entryCost := 25, edgePct := -20,
    winningSlot := some 2, winnerType := some .player, winnerId := some "7",
    payout := some 120, houseCommission := some 15, status := .completed,
    completedAt := some 100 }

/-- The store holding the settled game, its six player slots (all owned by
user 7) and user 7's ledger row. -/
def sDone : DbState :=
  ⟨[gDone],
   [⟨1, 1, .player, "7", 25⟩, ⟨1, 2, .player, "7", 25⟩, ⟨1, 3, .player, "7", 25⟩,
    ⟨1, 4, .player, "7", 25⟩, ⟨1, 5, .player, "7", 25⟩, ⟨1, 6, .player, "7", 25⟩],
   [⟨7, 1000, 1000, 0, none⟩], 2⟩

/-- C2 is violated by the code: spinGame has no status guard, so calling it
on the already-completed game re-runs settlement — it returns true,
overwrites the persisted winningSlot and completedAt, and credits the
winning player a second time (balance 1000 becomes 1120, totalEarned 1000
becomes 1120). -/
theorem spinGame_completed_reruns_settlement :
    (findGame sDone 1).map (fun g => (g.status, g.winningSlot, g.completedAt)) =
      some (GameStatus.completed, some 2, some 100) ∧
    (spinGame sDone 1 3 200).1 = true ∧
    ((spinGame sDone 1 3 200).2.games.find? (gameIdEq 1)).map
        (fun g => (g.winningSlot, g.completedAt)) = some (some 3, some 200) ∧
    userPointsView sDone 7 = (1000, 1000, 0) ∧
    userPointsView (spinGame sDone 1 3 200).2 7 = (1120, 1120, 0) := by
  have hp7 : jsParseInt "7" = some 7 := by decide
  refine ⟨by decide, ?_, ?_, by decide, ?_⟩
  all_goals
    simp [spinGame, getGameState, findGame, gameIdEq, gameSlotsOf, updateGame,
      updateGames, sDone, gDone, spinWinnerType, winnerSlotOf, spinWinnerId,
      ownerToWinner, playerSlotCount, totalPotOf, spinPayout, spinCommission,
      spinResultUpdate, jsRound, hp7, updateUserBalance, getOrCreateUserPoints,
      userIdEq, updateUserPointsRows, userPointsView]
  all_goals norm_num

/-- A fresh six-slot game with a funded user, for the C5 counter-scenario. -/
def sFresh : DbState :=
  ⟨[⟨1, .high, 6, 25, -20, none, none, none, none, none, .filling, none⟩], [],
   [⟨9, 30000, 30000, 0, none⟩], 2⟩

/-- C5 is violated by the code: buySpot performs no range check on the
requested slot number, so buying slot 7 on a 6-slot game succeeds and
persists a Slot with slotNumber 7 outside [1, slotCount]. -/
theorem buySpot_accepts_out_of_range_slot :
    (findGame sFresh 1).map (fun g => g.slotCount) = some 6 ∧
    (buySpot sFresh 1 9 7 1 0).1 = .ok 29975 ∧
    (buySpot sFresh 1 9 7 1 0).2.slots = [⟨1, 7, .player, "9", 25⟩] :=
  ⟨by decide, rfl, rfl⟩

end JackpotGame
